/- Verification of the VH_VL_Pack feature-encoding pipeline.

This file embeds the core data transformations of the VH_VL_Pack repository
(encode_4d.py, process_encode_VHVL_resseq.py, abYpack_singfile.py,
runGBRegmodel.py, find_VHVLres.py, findVHVLResidues.py and the NR2
redundancy reducer) as executable Lean definitions, and proves or refutes
the specification's claims about them.

Conventions of the embedding:
  - Python strings are `Str := List Char`; the ordering on `Str` is the
    lexicographic order on code points, like Python string comparison.
  - Numeric values are rationals, written with the same literals as the
    source lookup tables.
  - A Python dictionary lookup that can raise KeyError is an
    `Option`-valued function (`none` models the raised error); a function
    that can raise is `Option` or `Except` valued.
  - A pandas cell is `Cell := Option ℚ`; `none` models both NaN and the
    empty string (encode_4d.py replaces empty strings by NaN before its
    dropna, so the two are interchangeable there).
-/
import Mathlib

/-- A Python string, as its list of characters. -/
abbrev Str := List Char

/-- Shorthand for writing `Str` literals. -/
def str (s : String) : Str := s.data

/-- A pandas cell holding a number or a missing value (NaN / empty string). -/
abbrev Cell := Option ℚ

/-- Generic first-occurrence deduplication by a key function, with the list
of keys already seen. This is the semantics of pandas
`drop_duplicates(keep='first')` (with `subset` given by `key`). -/
def dedupByKeyAux {α κ : Type} [DecidableEq κ] (key : α → κ) :
    List α → List κ → List α
  | [], _ => []
  | a :: t, seen =>
    if key a ∈ seen then dedupByKeyAux key t seen
    else a :: dedupByKeyAux key t (key a :: seen)

/-- pandas `drop_duplicates(subset=key, keep='first')`. -/
def dedupByKey {α κ : Type} [DecidableEq κ] (key : α → κ) (l : List α) :
    List α :=
  dedupByKeyAux key l []

theorem dedupByKeyAux_subset {α κ : Type} [DecidableEq κ] (key : α → κ) :
    ∀ (l : List α) (seen : List κ) (x : α),
      x ∈ dedupByKeyAux key l seen → x ∈ l := by
  intro l
  induction l with
  | nil => intro seen x h; simp [dedupByKeyAux] at h
  | cons a t ih =>
    intro seen x h
    by_cases ha : key a ∈ seen
    · simp only [dedupByKeyAux, if_pos ha] at h
      exact List.mem_cons_of_mem a (ih seen x h)
    · simp only [dedupByKeyAux, if_neg ha, List.mem_cons] at h
      rcases h with h | h
      · exact h ▸ List.mem_cons_self a t
      · exact List.mem_cons_of_mem a (ih _ x h)

theorem dedupByKeyAux_not_seen {α κ : Type} [DecidableEq κ] (key : α → κ) :
    ∀ (l : List α) (seen : List κ) (x : α),
      x ∈ dedupByKeyAux key l seen → key x ∉ seen := by
  intro l
  induction l with
  | nil => intro seen x h; simp [dedupByKeyAux] at h
  | cons a t ih =>
    intro seen x h
    by_cases ha : key a ∈ seen
    · simp only [dedupByKeyAux, if_pos ha] at h
      exact ih seen x h
    · simp only [dedupByKeyAux, if_neg ha, List.mem_cons] at h
      rcases h with h | h
      · exact h ▸ ha
      · intro hx
        exact ih _ x h (List.mem_cons_of_mem _ hx)

theorem dedupByKeyAux_pairwise {α κ : Type} [DecidableEq κ] (key : α → κ) :
    ∀ (l : List α) (seen : List κ),
      List.Pairwise (fun a b => key a ≠ key b) (dedupByKeyAux key l seen) := by
  intro l
  induction l with
  | nil => intro seen; simp [dedupByKeyAux]
  | cons a t ih =>
    intro seen
    by_cases ha : key a ∈ seen
    · simpa only [dedupByKeyAux, if_pos ha] using ih seen
    · simp only [dedupByKeyAux, if_neg ha]
      refine List.Pairwise.cons ?_ (ih _)
      intro x hx
      have := dedupByKeyAux_not_seen key t _ x hx
      intro hk
      exact this (hk ▸ List.mem_cons_self _ _)

theorem dedupByKeyAux_of_pairwise {α κ : Type} [DecidableEq κ] (key : α → κ) :
    ∀ (l : List α) (seen : List κ),
      List.Pairwise (fun a b => key a ≠ key b) l →
      (∀ x ∈ l, key x ∉ seen) →
      dedupByKeyAux key l seen = l := by
  intro l
  induction l with
  | nil => intro seen _ _; simp [dedupByKeyAux]
  | cons a t ih =>
    intro seen hp hs
    have ha : key a ∉ seen := hs a (List.mem_cons_self a t)
    simp only [dedupByKeyAux, if_neg ha]
    refine congrArg (a :: ·) (ih _ hp.of_cons ?_)
    intro x hx
    simp only [List.mem_cons]
    rintro (h | h)
    · exact (List.rel_of_pairwise_cons hp hx) h.symm
    · exact hs x (List.mem_cons_of_mem a hx) h

theorem dedupByKey_of_pairwise {α κ : Type} [DecidableEq κ] (key : α → κ)
    (l : List α) (h : List.Pairwise (fun a b => key a ≠ key b) l) :
    dedupByKey key l = l :=
  dedupByKeyAux_of_pairwise key l [] h (by simp)

theorem dedupByKeyAux_find? {α κ : Type} [DecidableEq κ] (key : α → κ)
    (v : κ) :
    ∀ (l : List α) (seen : List κ),
      (dedupByKeyAux key l seen).find? (fun x => decide (key x = v)) =
        if v ∈ seen then none else l.find? (fun x => decide (key x = v)) := by
  intro l
  induction l with
  | nil => intro seen; simp [dedupByKeyAux]
  | cons a t ih =>
    intro seen
    by_cases hav : key a = v
    · by_cases hseen : v ∈ seen
      · have ha : key a ∈ seen := hav ▸ hseen
        simp only [dedupByKeyAux, if_pos ha, if_pos hseen] at ih ⊢
        rw [ih seen, if_pos hseen]
      · have ha : key a ∉ seen := fun h => hseen (hav ▸ h)
        simp only [dedupByKeyAux, if_neg ha, if_neg hseen]
        rw [List.find?_cons_of_pos _ (by simp [hav]),
          List.find?_cons_of_pos _ (by simp [hav])]
    · have step :
          (a :: t).find? (fun x => decide (key x = v)) =
            t.find? (fun x => decide (key x = v)) :=
        List.find?_cons_of_neg _ (by simp [hav])
      by_cases ha : key a ∈ seen
      · simp only [dedupByKeyAux, if_pos ha]
        rw [ih seen, step]
      · simp only [dedupByKeyAux, if_neg ha]
        rw [List.find?_cons_of_neg _ (by simp [hav]), ih, step]
        by_cases hseen : v ∈ seen
        · rw [if_pos hseen, if_pos (List.mem_cons_of_mem _ hseen)]
        · rw [if_neg hseen, if_neg ?_]
          simp only [List.mem_cons]
          rintro (h | h)
          · exact hav h.symm
          · exact hseen h

theorem dedupByKey_find? {α κ : Type} [DecidableEq κ] (key : α → κ)
    (v : κ) (l : List α) :
    (dedupByKey key l).find? (fun x => decide (key x = v)) =
      l.find? (fun x => decide (key x = v)) := by
  rw [dedupByKey, dedupByKeyAux_find?, if_neg (List.not_mem_nil v)]

namespace Encode4d

/-- encode_4d.py `nr_side_chain_atoms`: the dictionary
`nr_side_chain_atoms_dic`; a letter outside the dictionary raises KeyError,
modelled as `none`. (process_encode_VHVL_resseq.py and runGBRegmodel.py
contain the identical function.) -/
def nr_side_chain_atoms (resi : Char) : Option ℚ :=
  if resi = 'A' then some 1 else if resi = 'R' then some 7 else
  if resi = 'N' then some 4 else if resi = 'D' then some 4 else
  if resi = 'C' then some 2 else if resi = 'Q' then some 5 else
  if resi = 'E' then some 5 else if resi = 'G' then some 0 else
  if resi = 'H' then some 6 else if resi = 'I' then some 4 else
  if resi = 'L' then some 4 else if resi = 'K' then some 15 else
  if resi = 'M' then some 4 else if resi = 'F' then some 7 else
  if resi = 'P' then some 4 else if resi = 'S' then some 2 else
  if resi = 'T' then some 3 else if resi = 'W' then some 10 else
  if resi = 'Y' then some 8 else if resi = 'V' then some 3 else
  if resi = 'X' then some 10.375 else none

/-- encode_4d.py `compactness`: the dictionary `compactness_dic`;
KeyError modelled as `none`. -/
def compactness (resi : Char) : Option ℚ :=
  if resi = 'A' then some 1 else if resi = 'R' then some 6 else
  if resi = 'N' then some 3 else if resi = 'D' then some 3 else
  if resi = 'C' then some 2 else if resi = 'Q' then some 4 else
  if resi = 'E' then some 4 else if resi = 'G' then some 0 else
  if resi = 'H' then some 4 else if resi = 'I' then some 3 else
  if resi = 'L' then some 3 else if resi = 'K' then some 6 else
  if resi = 'M' then some 4 else if resi = 'F' then some 5 else
  if resi = 'P' then some 2 else if resi = 'S' then some 2 else
  if resi = 'T' then some 2 else if resi = 'W' then some 6 else
  if resi = 'Y' then some 6 else if resi = 'V' then some 2 else
  if resi = 'X' then some 4.45 else none

/-- encode_4d.py `hydophobicity` (sic): the dictionary `Hydrophathy_index`;
KeyError modelled as `none`. -/
def hydophobicity (resi : Char) : Option ℚ :=
  if resi = 'A' then some 0.250 else if resi = 'R' then some (-1.800) else
  if resi = 'N' then some (-0.640) else if resi = 'D' then some (-0.720) else
  if resi = 'C' then some 0.040 else if resi = 'Q' then some (-0.690) else
  if resi = 'E' then some (-0.620) else if resi = 'G' then some 0.160 else
  if resi = 'H' then some (-0.400) else if resi = 'I' then some 0.730 else
  if resi = 'L' then some 0.530 else if resi = 'K' then some (-1.100) else
  if resi = 'M' then some 0.260 else if resi = 'F' then some 0.610 else
  if resi = 'P' then some (-0.070) else if resi = 'S' then some (-0.260) else
  if resi = 'T' then some (-0.180) else if resi = 'W' then some 0.370 else
  if resi = 'Y' then some 0.020 else if resi = 'V' then some 0.540 else
  if resi = 'X' then some (-0.5) else none

/-- encode_4d.py `charge`: starts at 0 and adds the dictionary value when
the letter is a key of `dic`; total (never raises). -/
def charge (resi : Char) : ℚ :=
  if resi = 'D' then -1 else if resi = 'K' then 1 else
  if resi = 'R' then 1 else if resi = 'E' then -1 else
  if resi = 'H' then 0.5 else 0

/-- The 20-letter amino-acid alphabet (the keys of the dictionaries other
than the fallback 'X'). -/
def alphabet : List Char :=
  ['A', 'R', 'N', 'D', 'C', 'Q', 'E', 'G', 'H', 'I',
   'L', 'K', 'M', 'F', 'P', 'S', 'T', 'W', 'Y', 'V']

/-- One residue's 4 values in the order encode_4d.py's
`combine_by_pdb_code` writes them into the row string
`f'{a},{b},{c},{d},'`: a = res_charge, b = res_sc_nr (side-chain atoms),
c = res_compactness, d = res_hydrophob (the column order of the dataframe
built by `encode`). `none` when any dictionary lookup raises. -/
def encodeRes (resi : Char) : Option (List ℚ) :=
  match nr_side_chain_atoms resi, compactness resi, hydophobicity resi with
  | some b, some c, some d => some [charge resi, b, c, d]
  | _, _, _ => none

/-- Encode a whole residue sequence; any unknown letter aborts the run
(encode_4d.py's `encode` raises out of its loop). -/
def encodeAll : List Char → Option (List (List ℚ))
  | [] => some []
  | r :: rs =>
    match encodeRes r, encodeAll rs with
    | some q, some qs => some (q :: qs)
    | _, _ => none

/-- Insert one (code, residue) record into a code-keyed group list that is
kept sorted by code: the group order produced by pandas `groupby` (keys
sorted ascending), with the residues of one code concatenated in input
order (`aggregate` with string `sum`). -/
def insGroup (c : Str) (r : Char) : List (Str × List Char) → List (Str × List Char)
  | [] => [(c, [r])]
  | g :: t =>
    if c = g.1 then (g.1, g.2 ++ [r]) :: t
    else if c < g.1 then (c, [r]) :: g :: t
    else g :: insGroup c r t

/-- encode_4d.py `make_res_seq` composed with the per-code concatenation of
`combine_by_pdb_code`: group the residue records of the input CSV by code
(keys sorted, residues concatenated in input order). -/
def groupByCode (records : List (Str × Char)) : List (Str × List Char) :=
  records.foldl (fun acc p => insGroup p.1 p.2 acc) []

/-- Concatenation of the per-residue value quadruples, as the string sum of
`enc_df.groupby(...).aggregate(np.sum)` produces it. -/
def concatAll : List (List ℚ) → List ℚ
  | [] => []
  | l :: ls => l ++ concatAll ls

/-- The feature cells of one entity, for a schema of `n` relevant
positions (the column file has `4 * n` residue columns plus 'code',
'angle' and the appended 'trash' column): the concatenated encoded values
are split at commas — the trailing comma yields one final empty cell —
the row is padded with missing values up to the `4 * n + 1` columns
(pandas fills a row shorter than the column list with None, as happens
whenever some complete row sets the table width, and errors on a longer
one), and the 'trash' column is dropped again. No position alignment
takes place. -/
def entityCells (n : Nat) (residues : List Char) : Option (List Cell) :=
  match encodeAll residues with
  | none => none
  | some quads =>
    let items : List Cell := (concatAll quads).map some ++ [none]
    if items.length ≤ 4 * n + 1 then
      some ((items ++ List.replicate (4 * n + 1 - items.length) none).take (4 * n))
    else none

/-- The encoded table `encoded_df`: one row of cells per code. -/
def encodeGroups (n : Nat) : List (Str × List Char) → Option (List (Str × List Cell))
  | [] => some []
  | g :: gs =>
    match entityCells n g.2, encodeGroups n gs with
    | some cs, some rest => some ((g.1, cs) :: rest)
    | _, _ => none

/-- Look up the cell row of one code in the encoded table. -/
def lookupCells (c : Str) : List (Str × List Cell) → Option (List Cell)
  | [] => none
  | g :: t => if g.1 = c then some g.2 else lookupCells c t

/-- Stable insertion into a list sorted ascending by code: the sort
performed by `pd.merge(..., sort=True)`. -/
def insAngle (p : Str × ℚ) : List (Str × ℚ) → List (Str × ℚ)
  | [] => [p]
  | q :: t => if q.1 < p.1 then q :: insAngle p t else p :: q :: t

/-- The angle table sorted ascending by code (stable). -/
def sortByCode (angles : List (Str × ℚ)) : List (Str × ℚ) :=
  angles.foldr insAngle []

/-- `pd.merge(encoded_df, angle_file, how="right", on=["code"], sort=True)`:
one output row per angle-table row, sorted by code; a code with no encoded
row gets all-NaN feature cells. -/
def mergeRight (n : Nat) (enc : List (Str × List Cell)) (angles : List (Str × ℚ)) :
    List (Str × List Cell × ℚ) :=
  (sortByCode angles).map (fun p =>
    match lookupCells p.1 enc with
    | some cells => (p.1, cells, p.2)
    | none => (p.1, List.replicate (4 * n) none, p.2))

/-- encode_4d.py's cleanup: `replace('', NaN)` followed by
`dropna(axis=0, how='any')` — drop every row with a missing cell. -/
def dropNaN (rows : List (Str × List Cell × ℚ)) : List (Str × List Cell × ℚ) :=
  rows.filter (fun r => r.2.1.all (fun c => c.isSome))

/-- encode_4d.py `combine_by_pdb_code` (with `encode` and `make_res_seq`
inlined upstream): group the residue CSV records by code, encode and
concatenate, split into the `4 * n` residue columns, right-merge with the
angle table sorted by code, and drop rows with missing cells. -/
def combine_by_pdb_code (n : Nat) (records : List (Str × Char))
    (angles : List (Str × ℚ)) : Option (List (Str × List Cell × ℚ)) :=
  match encodeGroups n (groupByCode records) with
  | none => none
  | some enc => some (dropNaN (mergeRight n enc angles))

end Encode4d

namespace ProcessEncode

/-- process_encode_VHVL_resseq.py hardcodes its 13 relevant positions
(L38, L40, L41, L44, L46, L87, H33, H42, H45, H60, H62, H91, H105): 52
residue columns plus 'trash'. -/
def nPositions : Nat := 13

/-- process_encode_VHVL_resseq.py `combine_by_pdb_code`: identical to the
encode_4d.py version (same grouping, encoding, split with a trailing
'trash' column, and right-merge sorted by code) except that the column list
is fixed at 13 positions and NO dropna/replace cleanup follows the merge —
the merged table is returned as is. -/
def combine_by_pdb_code (records : List (Str × Char)) (angles : List (Str × ℚ)) :
    Option (List (Str × List Cell × ℚ)) :=
  match Encode4d.encodeGroups nPositions (Encode4d.groupByCode records) with
  | none => none
  | some enc => some (Encode4d.mergeRight nPositions enc angles)

end ProcessEncode

namespace AbYpack

/-- abYpack_singfile.py `nr_side_chain_atoms`: the same dictionary as
encode_4d.py, but a letter outside it falls back to 0 instead of raising
(`if resi in ... else 0`). -/
def nr_side_chain_atoms (resi : Char) : ℚ :=
  (Encode4d.nr_side_chain_atoms resi).getD 0

/-- abYpack_singfile.py `compactness`: same dictionary, fallback 0. -/
def compactness (resi : Char) : ℚ :=
  (Encode4d.compactness resi).getD 0

/-- abYpack_singfile.py `hydrophobicity`: same dictionary, fallback 0. -/
def hydrophobicity (resi : Char) : ℚ :=
  (Encode4d.hydophobicity resi).getD 0

/-- abYpack_singfile.py `charge`: identical to encode_4d.py's (already
total, with `else: charge = 0` made explicit). -/
def charge (resi : Char) : ℚ := Encode4d.charge resi

/-- The four cell values abYpack_singfile.py's `encode_4d` computes for one
residue, in its column order: `{column}a` = side-chain atoms, `{column}b` =
charge, `{column}c` = compactness, `{column}d` = hydrophobicity. -/
def encode_4d_of_residue (resi : Char) : List ℚ :=
  [nr_side_chain_atoms resi, charge resi, compactness resi, hydrophobicity resi]

/-- One row of the dataframe built by abYpack_singfile.py's `seq2df`:
entity code, L/H position label, raw residue string. -/
structure SeqRow where
  code : Str
  lhposition : Str
  residue : Str

deriving instance DecidableEq for SeqRow

/-- The first statement of abYpack_singfile.py `encode_df`:
`df.drop_duplicates(subset=['code', 'L/H position'], keep='first')`. -/
def drop_duplicates_code_pos (rows : List SeqRow) : List SeqRow :=
  dedupByKey (fun r => (r.code, r.lhposition)) rows

end AbYpack

/-- The three-letter to one-letter residue dictionary `dic` shared verbatim
by runGBRegmodel.py `one_letter_code` and findVHVLResidues.py
`one_letter_code` (20 amino acids plus the 'XAA'/'UNK' catch-all). -/
def one_letter_dic : List (Str × Char) :=
  [(str "CYS", 'C'), (str "ASP", 'D'), (str "SER", 'S'), (str "GLN", 'Q'),
   (str "LYS", 'K'), (str "ILE", 'I'), (str "PRO", 'P'), (str "THR", 'T'),
   (str "PHE", 'F'), (str "ASN", 'N'), (str "GLY", 'G'), (str "HIS", 'H'),
   (str "LEU", 'L'), (str "ARG", 'R'), (str "TRP", 'W'), (str "ALA", 'A'),
   (str "VAL", 'V'), (str "GLU", 'E'), (str "TYR", 'Y'), (str "MET", 'M'),
   (str "XAA", 'X'), (str "UNK", 'X')]

/-- The Python exceptions the residue-code converters can raise. -/
inductive PyErr
  | valueError
  | keyError

deriving instance DecidableEq for PyErr

namespace RunGBReg

/-- runGBRegmodel.py `one_letter_code`: `if res not in dic: raise
ValueError` then `dic[res]`; the raise is modelled as `none`. (The
`utils.one_letter_code` used by find_VHVLres.py is not part of the
repository snapshot; per the spec it is this same fixed table with a
catch-all, raising on any other code, so this in-repository copy stands
for it.) -/
def one_letter_code (res : Str) : Option Char :=
  one_letter_dic.lookup res

/-- runGBRegmodel.py `seq2df`: `cdrL1_pos = [f'L{i}' for i in range(24, 35)]`. -/
def cdrL1_pos : List Str :=
  [str "L24", str "L25", str "L26", str "L27", str "L28", str "L29",
   str "L30", str "L31", str "L32", str "L33", str "L34"]

/-- runGBRegmodel.py `seq2df`: `cdrH2_pos = [f'H{i}' for i in range(50, 59)]`. -/
def cdrH2_pos : List Str :=
  [str "H50", str "H51", str "H52", str "H53", str "H54", str "H55",
   str "H56", str "H57", str "H58"]

/-- runGBRegmodel.py `seq2df`: `cdrH3_pos = [f'H{i}' for i in range(95, 103)]`. -/
def cdrH3_pos : List Str :=
  [str "H95", str "H96", str "H97", str "H98", str "H99", str "H100",
   str "H101", str "H102"]

/-- The loop-length bookkeeping state of runGBRegmodel.py `seq2df`: the
accumulator lists `l1_res`, `h2_res`, `h3_res` and the `dRes` entries
`L1_length`, `H2_length`, `H3_length` (`none` while the key is unset). -/
structure LoopState where
  l1_res : List Str
  h2_res : List Str
  h3_res : List Str
  L1_length : Option Nat
  H2_length : Option Nat
  H3_length : Option Nat

deriving instance DecidableEq for LoopState

/-- One iteration of the `for line in lines` loop of runGBRegmodel.py
`seq2df`, restricted to its loop-length bookkeeping: a position in
`cdrL1_pos` is appended to `l1_res` and `L1_length` is set to the new
length; likewise for `cdrH2_pos`/`h2_res`; for a position in `cdrH3_pos`
the code sets `H3_length = len(h3_res)` but NEVER appends to `h3_res`
(there is no `h3_res.append(position)` in the source). -/
def seq2df_step (s : LoopState) (position : Str) : LoopState :=
  let s1 :=
    if cdrL1_pos.contains position then
      let l1 := s.l1_res ++ [position]
      ⟨l1, s.h2_res, s.h3_res, some l1.length, s.H2_length, s.H3_length⟩
    else s
  let s2 :=
    if cdrH2_pos.contains position then
      let h2 := s1.h2_res ++ [position]
      ⟨s1.l1_res, h2, s1.h3_res, s1.L1_length, some h2.length, s1.H3_length⟩
    else s1
  if cdrH3_pos.contains position then
    ⟨s2.l1_res, s2.h2_res, s2.h3_res, s2.L1_length, s2.H2_length,
      some s2.h3_res.length⟩
  else s2

/-- The loop-length state after runGBRegmodel.py `seq2df` has processed the
position labels of all lines of the .seq file, in order. -/
def seq2df_loops (positions : List Str) : LoopState :=
  positions.foldl seq2df_step ⟨[], [], [], none, none, none⟩

end RunGBReg

/-- The count of positions actually observed within a designated range —
the loop-length value the spec prescribes (spec §4.3: "for designated
position ranges ..., the count of positions actually observed within that
range"). -/
def countInRange (range : List Str) (positions : List Str) : Nat :=
  (positions.filter (fun p => range.contains p)).length

/-- One parsed ATOM record, as both prep_table variants consume it:
entity code, chain id, three-letter residue code, residue sequence number
(with any insertion letter). The raw-line tokenization that produces these
fields is outside the core per spec §1/§6. -/
structure AtomRec where
  code : Str
  chain : Str
  residue3 : Str
  res_num : Str

deriving instance DecidableEq for AtomRec

/-- One row of the residue table built by prep_table (columns 'code',
'chain', 'residue', 'number', 'L/H position'). -/
structure PrepRow where
  code : Str
  chain : Str
  residue : Char
  number : Str
  lhposition : Str

deriving instance DecidableEq for PrepRow

namespace FindVHVLRes

/-- find_VHVLres.py `prep_table`: converts each record's three-letter code
(`try: one_letter_code ... except ValueError: continue` — a failing record
is skipped and processing continues), builds the row with
`lhposition = chain + res_num`, and ends with `ftable.drop_duplicates()`,
which drops only fully identical rows. -/
def prep_table (records : List AtomRec) : List PrepRow :=
  dedupByKey id (records.filterMap (fun r =>
    (RunGBReg.one_letter_code r.residue3).map (fun c =>
      ⟨r.code, r.chain, c, r.res_num, r.chain ++ r.res_num⟩)))

/-- find_VHVLres.py `vh_vl_relevant_residues`: the `good_positions` list. -/
def good_positions : List Str :=
  [str "L38", str "L40", str "L41", str "L44", str "L46", str "L87",
   str "H33", str "H42", str "H45", str "H60", str "H62", str "H91",
   str "H105"]

/-- find_VHVLres.py `vh_vl_relevant_residues`: keep the rows whose
'L/H position' is a member of `good_positions` (`isin`), then project the
columns ('code', 'L/H position', 'residue'). -/
def vh_vl_relevant_residues (vtable : List PrepRow) : List (Str × Str × Char) :=
  (vtable.filter (fun r => good_positions.contains r.lhposition)).map
    (fun r => (r.code, r.lhposition, r.residue))

end FindVHVLRes

namespace FindVHVLResidues

/-- findVHVLResidues.py `one_letter_code`: raises ValueError when the code's
length is not a multiple of 3, and otherwise indexes the dictionary
directly — an unknown three-letter code raises KeyError. -/
def one_letter_code (res : Str) : Except PyErr Char :=
  if res.length % 3 ≠ 0 then .error .valueError
  else
    match one_letter_dic.lookup res with
    | some c => .ok c
    | none => .error .keyError

/-- The record loop of findVHVLResidues.py `prep_table`: there is no
try/except around `one_letter_code`, so the first record with an unknown
residue code aborts the whole table build with the raised exception. -/
def prep_rows : List AtomRec → Except PyErr (List PrepRow)
  | [] => .ok []
  | r :: t =>
    match one_letter_code r.residue3 with
    | .error e => .error e
    | .ok c =>
      match prep_rows t with
      | .error e => .error e
      | .ok rest => .ok (⟨r.code, r.chain, c, r.res_num, r.chain ++ r.res_num⟩ :: rest)

/-- findVHVLResidues.py `prep_table`: the record loop followed by
`ftable.drop_duplicates()` (full-row deduplication). -/
def prep_table (records : List AtomRec) : Except PyErr (List PrepRow) :=
  (prep_rows records).map (dedupByKey id)

/-- True when `pat` occurs in `s` starting at its head. -/
def startsWithL : Str → Str → Bool
  | [], _ => true
  | _ :: _, [] => false
  | p :: ps, c :: cs => p == c && startsWithL ps cs

/-- True when `pat` occurs in `s` as a contiguous substring — the semantics
of pandas `str.contains` with a plain alternation pattern. -/
def hasSubstr (pat : Str) : Str → Bool
  | [] => pat.isEmpty
  | c :: cs => startsWithL pat (c :: cs) || hasSubstr pat cs

/-- The alternatives of the regex
`'L38|L40|L41|L44|L46|L87|H33|H42|H45|H60|H62|H91|H105'` of
findVHVLResidues.py `vh_vl_relevant_residues`. -/
def patterns : List Str :=
  [str "L38", str "L40", str "L41", str "L44", str "L46", str "L87",
   str "H33", str "H42", str "H45", str "H60", str "H62", str "H91",
   str "H105"]

/-- findVHVLResidues.py `vh_vl_relevant_residues`: keep the rows whose
'L/H position' CONTAINS one of the pattern alternatives as a substring
(`vtable['L/H position'].str.contains('L38|L40|...')`), then project the
columns ('code', 'L/H position', 'residue'). -/
def vh_vl_relevant_residues (vtable : List PrepRow) : List (Str × Str × Char) :=
  (vtable.filter (fun r => patterns.any (fun p => hasSubstr p r.lhposition))).map
    (fun r => (r.code, r.lhposition, r.residue))

end FindVHVLResidues

namespace Nonred

/-- Modelled from the spec: the redundancy reducer `nonred.NR2` is imported
and called by gbr_angle_prediction.py `preprocessing`, but nonred.py itself
is not among the repository's files. Per the spec (§4.5), two entities are
duplicates exactly when every relevant-position residue identity matches —
on the encoded table this means identical feature tuples — and exactly one
representative per duplicate class is kept, the first seen in input order.
A row is (entity code, encoded feature tuple). -/
def NR2 (rows : List (Str × List ℚ)) : List (Str × List ℚ) :=
  dedupByKey (fun r => r.2) rows

end Nonred

namespace Encode4d

theorem mem_insAngle {p x : Str × ℚ} :
    ∀ {l : List (Str × ℚ)}, x ∈ insAngle p l ↔ x = p ∨ x ∈ l := by
  intro l
  induction l with
  | nil => simp [insAngle]
  | cons q t ih =>
    by_cases h : q.1 < p.1
    · simp only [insAngle, if_pos h, List.mem_cons, ih]
      tauto
    · simp only [insAngle, if_neg h, List.mem_cons]

theorem insAngle_sorted (p : Str × ℚ) :
    ∀ {l : List (Str × ℚ)},
      List.Sorted (fun a b => a.1 ≤ b.1) l →
      List.Sorted (fun a b => a.1 ≤ b.1) (insAngle p l) := by
  intro l
  induction l with
  | nil => intro _; simp [insAngle]
  | cons q t ih =>
    intro h
    rw [List.sorted_cons] at h
    obtain ⟨hq, ht⟩ := h
    by_cases hlt : q.1 < p.1
    · simp only [insAngle, if_pos hlt]
      rw [List.sorted_cons]
      refine ⟨?_, ih ht⟩
      intro b hb
      rcases mem_insAngle.mp hb with rfl | hb
      · exact le_of_lt hlt
      · exact hq b hb
    · simp only [insAngle, if_neg hlt]
      rw [List.sorted_cons]
      refine ⟨?_, List.sorted_cons.mpr ⟨hq, ht⟩⟩
      intro b hb
      rcases List.mem_cons.mp hb with rfl | hb
      · exact le_of_not_lt hlt
      · exact le_trans (le_of_not_lt hlt) (hq b hb)

theorem sortByCode_sorted (l : List (Str × ℚ)) :
    List.Sorted (fun a b => a.1 ≤ b.1) (sortByCode l) := by
  induction l with
  | nil => simp [sortByCode]
  | cons p t ih => exact insAngle_sorted p ih

theorem insAngle_perm (p : Str × ℚ) :
    ∀ (l : List (Str × ℚ)), List.Perm (insAngle p l) (p :: l) := by
  intro l
  induction l with
  | nil => simp [insAngle]
  | cons q t ih =>
    by_cases h : q.1 < p.1
    · simp only [insAngle, if_pos h]
      exact (ih.cons q).trans (List.Perm.swap p q t)
    · simp only [insAngle, if_neg h]
      exact List.Perm.refl _

theorem sortByCode_perm (l : List (Str × ℚ)) : List.Perm (sortByCode l) l := by
  induction l with
  | nil => simp [sortByCode]
  | cons p t ih => exact (insAngle_perm p (sortByCode t)).trans (ih.cons p)

theorem mergeRight_codes (n : Nat) (enc : List (Str × List Cell))
    (angles : List (Str × ℚ)) :
    (mergeRight n enc angles).map (fun r => r.1) =
      (sortByCode angles).map (fun p => p.1) := by
  unfold mergeRight
  rw [List.map_map]
  refine List.map_congr_left ?_
  intro p _
  simp only [Function.comp]
  cases h : lookupCells p.1 enc <;> simp [h]

theorem mergeRight_mem_codes {n : Nat} {enc : List (Str × List Cell)}
    {angles : List (Str × ℚ)} {r : Str × List Cell × ℚ}
    (h : r ∈ mergeRight n enc angles) : r.1 ∈ angles.map (fun p => p.1) := by
  unfold mergeRight at h
  obtain ⟨p, hp, rfl⟩ := List.mem_map.mp h
  have hp' : p ∈ angles := (sortByCode_perm angles).mem_iff.mp hp
  have hfst :
      (match lookupCells p.1 enc with
        | some cells => (p.1, cells, p.2)
        | none => (p.1, List.replicate (4 * n) none, p.2)).1 = p.1 := by
    cases lookupCells p.1 enc <;> rfl
  rw [hfst]
  exact List.mem_map_of_mem _ hp'

end Encode4d

/-- Claim C5, counterexample: the claim says any single-letter input other
than the 20 amino-acid letters and 'X' raises UnknownResidueCode, but
abYpack_singfile.py's encoders return the silent fallback values
(0, 0, 0, 0) for such a letter, e.g. 'Z'. -/
theorem abypack_unknown_letter_zero_fill :
    'Z' ∉ Encode4d.alphabet ∧ 'Z' ≠ 'X' ∧
    AbYpack.encode_4d_of_residue 'Z' = [0, 0, 0, 0] :=
  ⟨by decide, by decide, rfl⟩

/-- Claim C5, amended: for every letter of the 20-symbol alphabet all three
lookup tables are defined; the charge values are exactly D = -1, K = +1,
R = +1, E = -1, H = +0.5 and 0 for every other residue letter; 'X' gets the
documented fallback constants (10.375, 4.45, -0.5); and for any other
letter the encode_4d.py dictionaries raise a lookup error (its total
`charge` returns 0) while the abYpack_singfile.py encoders return 0 in all
four fields instead of raising. -/
theorem residue_encoder_contract :
    (∀ c ∈ Encode4d.alphabet,
      (Encode4d.nr_side_chain_atoms c).isSome ∧
      (Encode4d.compactness c).isSome ∧
      (Encode4d.hydophobicity c).isSome) ∧
    (Encode4d.charge 'D' = -1 ∧ Encode4d.charge 'K' = 1 ∧
     Encode4d.charge 'R' = 1 ∧ Encode4d.charge 'E' = -1 ∧
     Encode4d.charge 'H' = 0.5 ∧
     ∀ c, c ∉ (['D', 'K', 'R', 'E', 'H'] : List Char) → Encode4d.charge c = 0) ∧
    (Encode4d.nr_side_chain_atoms 'X' = some 10.375 ∧
     Encode4d.compactness 'X' = some 4.45 ∧
     Encode4d.hydophobicity 'X' = some (-0.5)) ∧
    (∀ c, c ∉ Encode4d.alphabet → c ≠ 'X' →
      Encode4d.nr_side_chain_atoms c = none ∧
      Encode4d.compactness c = none ∧
      Encode4d.hydophobicity c = none ∧
      AbYpack.nr_side_chain_atoms c = 0 ∧
      AbYpack.compactness c = 0 ∧
      AbYpack.hydrophobicity c = 0 ∧
      AbYpack.charge c = 0) := by
  refine ⟨by decide, ⟨rfl, rfl, rfl, rfl, rfl, ?_⟩, ⟨rfl, rfl, rfl⟩, ?_⟩
  · intro c hc
    simp only [List.mem_cons, List.not_mem_nil, or_false] at hc
    push_neg at hc
    obtain ⟨hD, hK, hR, hE, hH⟩ := hc
    simp [Encode4d.charge, hD, hK, hR, hE, hH]
  · intro c hc hX
    simp only [Encode4d.alphabet, List.mem_cons, List.not_mem_nil, or_false] at hc
    push_neg at hc
    obtain ⟨hA, hR, hN, hD, hC, hQ, hE, hG, hH, hI, hL, hK, hM, hF, hP, hS,
      hT, hW, hY, hV⟩ := hc
    refine ⟨?_, ?_, ?_, ?_, ?_, ?_, ?_⟩ <;>
      simp [Encode4d.nr_side_chain_atoms, Encode4d.compactness,
        Encode4d.hydophobicity, Encode4d.charge, AbYpack.nr_side_chain_atoms,
        AbYpack.compactness, AbYpack.hydrophobicity, AbYpack.charge,
        hA, hR, hN, hD, hC, hQ, hE, hG, hH, hI, hL, hK, hM, hF, hP, hS,
        hT, hW, hY, hV, hX]

/-- Claim C5, witness: the amended contract instantiated at the concrete
unknown letter 'Z'. -/
theorem residue_encoder_contract_witness :
    Encode4d.nr_side_chain_atoms 'Z' = none ∧ AbYpack.nr_side_chain_atoms 'Z' = 0 :=
  ⟨(residue_encoder_contract.2.2.2 'Z' (by decide) (by decide)).1,
   (residue_encoder_contract.2.2.2 'Z' (by decide) (by decide)).2.2.2.1⟩

/-- Claim C6, counterexample: findVHVLResidues.py filters with
`str.contains`, so the label "H33A" — which is NOT in the relevant-position
list but contains the relevant label "H33" as a substring — appears in the
output. -/
theorem substring_filter_admits_H33A :
    FindVHVLResidues.vh_vl_relevant_residues
        [⟨str "X1", str "H", 'Y', str "33A", str "H33A"⟩] =
      [(str "X1", str "H33A", 'Y')] ∧
    str "H33A" ∉ FindVHVLResidues.patterns ∧
    str "H33A" ∉ FindVHVLRes.good_positions :=
  ⟨by decide, by decide, by decide⟩

/-- Claim C6, amended: find_VHVLres.py's extractor restricts exactly to
labels that are members of the relevant-position list (every output label
is a member, and every input row with a member label is kept), whereas
findVHVLResidues.py keeps any row whose label merely contains a relevant
label as a substring (see the counterexample). -/
theorem relevant_residues_exact_restriction (vtable : List PrepRow) :
    (∀ x ∈ FindVHVLRes.vh_vl_relevant_residues vtable,
      x.2.1 ∈ FindVHVLRes.good_positions) ∧
    (∀ r ∈ vtable, r.lhposition ∈ FindVHVLRes.good_positions →
      (r.code, r.lhposition, r.residue) ∈ FindVHVLRes.vh_vl_relevant_residues vtable) := by
  constructor
  · intro x hx
    obtain ⟨r, hr, rfl⟩ := List.mem_map.mp hx
    have hmem := (List.mem_filter.mp hr).2
    simpa using hmem
  · intro r hr hmem
    refine List.mem_map_of_mem _ (List.mem_filter.mpr ⟨hr, ?_⟩)
    simpa using hmem

/-- Claim C6, witness: the exact restriction instantiated at a one-row
table whose label L38 is relevant. -/
theorem relevant_residues_exact_restriction_witness :
    (str "X1", str "L38", 'Q') ∈
      FindVHVLRes.vh_vl_relevant_residues
        [⟨str "X1", str "L", 'Q', str "38", str "L38"⟩] :=
  (relevant_residues_exact_restriction
      [⟨str "X1", str "L", 'Q', str "38", str "L38"⟩]).2
    ⟨str "X1", str "L", 'Q', str "38", str "L38"⟩ (by decide) (by decide)

/-- Claim C7, counterexample: in findVHVLResidues.py an unknown
three-letter code ("ZZZ") aborts the entire prep_table build with the
raised KeyError — the second record (a different, valid entity) is never
processed — while find_VHVLres.py on the same input skips the bad record
and still yields the other entity's row. -/
theorem unknown_code_fatal_in_findVHVLResidues :
    FindVHVLResidues.prep_table
        [⟨str "X1", str "L", str "ZZZ", str "38"⟩,
         ⟨str "X2", str "L", str "GLN", str "38"⟩] =
      .error .keyError ∧
    FindVHVLRes.prep_table
        [⟨str "X1", str "L", str "ZZZ", str "38"⟩,
         ⟨str "X2", str "L", str "GLN", str "38"⟩] =
      [⟨str "X2", str "L", 'Q', str "38", str "L38"⟩] :=
  ⟨rfl, by decide⟩

/-- Claim C7, amended: in find_VHVLres.py an unknown three-letter residue
code is non-fatal — deleting the failing record from anywhere in the input
leaves the produced table unchanged, so all other records and entities are
still processed; in findVHVLResidues.py the same input is fatal to the
whole build (see the counterexample). -/
theorem prep_table_skips_unknown_code (l1 l2 : List AtomRec) (bad : AtomRec)
    (h : RunGBReg.one_letter_code bad.residue3 = none) :
    FindVHVLRes.prep_table (l1 ++ bad :: l2) = FindVHVLRes.prep_table (l1 ++ l2) := by
  unfold FindVHVLRes.prep_table
  rw [List.filterMap_append, List.filterMap_append, List.filterMap_cons]
  simp [h]

/-- Claim C7, witness: skipping the concrete unknown record ("ZZZ"). -/
theorem prep_table_skips_unknown_code_witness :
    FindVHVLRes.prep_table
        [⟨str "X1", str "L", str "ZZZ", str "38"⟩,
         ⟨str "X1", str "L", str "GLN", str "38"⟩] =
      FindVHVLRes.prep_table [⟨str "X1", str "L", str "GLN", str "38"⟩] :=
  prep_table_skips_unknown_code [] [⟨str "X1", str "L", str "GLN", str "38"⟩]
    ⟨str "X1", str "L", str "ZZZ", str "38"⟩ (by decide)

/-- Claim C8, counterexample: find_VHVLres.py's prep_table deduplicates
only fully identical rows, so two records sharing (entity id, position
label) but with different residue identities BOTH survive into the
extractor's output — the output has two residue identities for
(X1, L38), refuting "at most one residue identity per (entity id,
position label)". -/
theorem extractor_keeps_conflicting_duplicate :
    FindVHVLRes.vh_vl_relevant_residues (FindVHVLRes.prep_table
        [⟨str "X1", str "L", str "GLN", str "38"⟩,
         ⟨str "X1", str "L", str "ALA", str "38"⟩]) =
      [(str "X1", str "L38", 'Q'), (str "X1", str "L38", 'A')] := by
  decide

/-- Claim C8, amended: abYpack_singfile.py's encode_df does enforce
per-(code, position) uniqueness with first-occurrence-wins semantics: its
drop_duplicates output never has two rows sharing (code, position), and
for every (code, position) the first surviving match equals the first
match of the input; find_VHVLres.py's prep_table deduplicates only fully
identical rows, so records sharing (entity, position) with different
residues all survive (see the counterexample). -/
theorem drop_duplicates_first_wins (rows : List AbYpack.SeqRow) :
    List.Pairwise (fun a b => ¬(a.code = b.code ∧ a.lhposition = b.lhposition))
      (AbYpack.drop_duplicates_code_pos rows) ∧
    ∀ c p : Str,
      (AbYpack.drop_duplicates_code_pos rows).find?
          (fun r => decide ((r.code, r.lhposition) = (c, p))) =
        rows.find? (fun r => decide ((r.code, r.lhposition) = (c, p))) := by
  constructor
  · have hpw := dedupByKeyAux_pairwise
      (fun r : AbYpack.SeqRow => (r.code, r.lhposition)) rows []
    refine hpw.imp ?_
    intro a b hk hab
    exact hk (by rw [hab.1, hab.2])
  · intro c p
    exact dedupByKey_find? _ (c, p) rows

/-- Claim C1 (code bug): with the relevant positions [L38, H91], a
complete entity X1 (Q at L38, Y at H91) and an entity X2 whose only record
is the residue 'Y' at H91, the builder does not put the NaN sentinel into
X2's H91 columns: it concatenates encoded values without any position
alignment, so Y's values (charge 0, atoms 8, compactness 6, hydrophobicity
0.020) land in X2's L38 columns and the trailing four cells — the H91
columns — are the missing ones; X2's row is then removed entirely by
encode_4d.py's dropna cleanup while X1's row stays. -/
theorem missing_position_shifts_and_drops :
    Encode4d.entityCells 2 ['Y'] =
      some [some 0, some 8, some 6, some 0.020, none, none, none, none] ∧
    Encode4d.combine_by_pdb_code 2
        [(str "X1", 'Q'), (str "X1", 'Y'), (str "X2", 'Y')]
        [(str "X1", -44.6), (str "X2", -50.9)] =
      some [(str "X1",
        [some 0, some 5, some 4, some (-0.690), some 0, some 8, some 6, some 0.020],
        -44.6)] :=
  ⟨rfl, rfl⟩

/-- Claim C2, counterexample: for the position set [L38, H91] and entity
X1 with Q at L38 and Y at H91, the pipeline does NOT produce the claimed
row X1,5,4,-0.69,0,8,6,0.02,0 (per-position order atoms, compactness,
hydrophobicity, charge). -/
theorem worked_example_claimed_row_refuted :
    Encode4d.combine_by_pdb_code 2 [(str "X1", 'Q'), (str "X1", 'Y')]
        [(str "X1", -44.6)] ≠
      some [(str "X1",
        [some 5, some 4, some (-0.69), some 0, some 8, some 6, some 0.02, some 0],
        -44.6)] := by
  decide

/-- Claim C2, amended: each position's 4 columns hold, in order, charge,
side-chain atom count, compactness, hydrophobicity (the column order of
the dataframe built by `encode`, which `combine_by_pdb_code` writes as
`f'{a},{b},{c},{d},'`): Q encodes to (0, 5, 4, -0.69) and Y to
(0, 8, 6, 0.02), so the produced row is X1,0,5,4,-0.69,0,8,6,0.02. -/
theorem worked_example_actual_row :
    Encode4d.combine_by_pdb_code 2 [(str "X1", 'Q'), (str "X1", 'Y')]
        [(str "X1", -44.6)] =
      some [(str "X1",
        [some 0, some 5, some 4, some (-0.690), some 0, some 8, some 6, some 0.020],
        -44.6)] := by
  rfl

/-- Claim C3 (against the spec-modelled NR2): (1) an input whose rows have
pairwise distinct feature tuples is returned unchanged; (2) no two output
rows share identical feature tuples; (3) for every feature tuple, the
first output row carrying it equals the first input row carrying it — so
when two entities have identical residues at every relevant position,
exactly one survives, the first seen in input order. -/
theorem NR2_reduction_spec (rows : List (Str × List ℚ)) :
    (List.Pairwise (fun a b => a.2 ≠ b.2) rows → Nonred.NR2 rows = rows) ∧
    List.Pairwise (fun a b => a.2 ≠ b.2) (Nonred.NR2 rows) ∧
    ∀ f : List ℚ,
      (Nonred.NR2 rows).find? (fun r => decide (r.2 = f)) =
        rows.find? (fun r => decide (r.2 = f)) :=
  ⟨fun h => dedupByKey_of_pairwise _ rows h,
   dedupByKeyAux_pairwise _ rows [],
   fun f => dedupByKey_find? _ f rows⟩

/-- Claim C3, witness: a duplicate-free two-row table is a fixed point of
NR2. -/
theorem NR2_reduction_spec_witness :
    Nonred.NR2 [(str "A", [(1 : ℚ)]), (str "C", [2])] =
      [(str "A", [(1 : ℚ)]), (str "C", [2])] :=
  (NR2_reduction_spec [(str "A", [(1 : ℚ)]), (str "C", [2])]).1 (by decide)

/-- Claim C4, counterexample: process_encode_VHVL_resseq.py performs the
right join but no missing-field exclusion follows it — an entity "B" with
a label and no feature row yields a row whose 52 feature cells are all
missing, and that row is returned, not excluded. -/
theorem process_encode_keeps_missing_row :
    ProcessEncode.combine_by_pdb_code [] [(str "B", 42)] =
      some [(str "B", List.replicate 52 none, 42)] ∧
    ¬(∀ c ∈ List.replicate 52 (none : Cell), c ≠ none) :=
  ⟨rfl, by decide⟩

/-- Claim C4, amended: in encode_4d.py the join is a right join keyed on
entity code and the cleanup afterwards is strict — every row of the
returned training table has no missing feature cell, and its code appears
in the label table (so an entity with features but no label is dropped,
and an entity with a label but no complete feature row is dropped); in
process_encode_VHVL_resseq.py the same right join is performed but no
missing-field exclusion follows (see the counterexample). -/
theorem combine_join_strictness (n : Nat) (records : List (Str × Char))
    (angles : List (Str × ℚ)) (t : List (Str × List Cell × ℚ))
    (h : Encode4d.combine_by_pdb_code n records angles = some t) :
    ∀ r ∈ t, (∀ c ∈ r.2.1, c ≠ none) ∧ r.1 ∈ angles.map (fun p => p.1) := by
  intro r hr
  unfold Encode4d.combine_by_pdb_code at h
  cases henc : Encode4d.encodeGroups n (Encode4d.groupByCode records) with
  | none => rw [henc] at h; exact absurd h (by simp)
  | some enc =>
    rw [henc] at h
    injection h with h
    subst h
    unfold Encode4d.dropNaN at hr
    have hmem := List.mem_filter.mp hr
    refine ⟨?_, Encode4d.mergeRight_mem_codes hmem.1⟩
    intro c hc
    have hall := List.all_eq_true.mp hmem.2 c hc
    simpa [Option.isSome_iff_ne_none] using hall

/-- Claim C4, witness: the strictness property instantiated at a concrete
one-entity run. -/
theorem combine_join_strictness_witness :
    (∀ c ∈ ([] : List Cell), c ≠ none) ∧
    str "A" ∈ ([(str "A", (1 : ℚ))].map (fun p => p.1)) :=
  combine_join_strictness 0 [] [(str "A", 1)] [(str "A", [], 1)] (by rfl)
    (str "A", [], 1) (by decide)

/-- Claim C9 (code bug): runGBRegmodel.py's seq2df never appends to
`h3_res`, so for a .seq file containing the position H95 — one observed
position inside the H3 range H95..H102 — it sets H3_length to 0, while
the count of positions observed within the range is 1. -/
theorem seq2df_H3_length_zero_bug :
    (RunGBReg.seq2df_loops [str "H95"]).H3_length = some 0 ∧
    countInRange RunGBReg.cdrH3_pos [str "H95"] = 1 := by
  decide

/-- Claim C10, counterexample: permuting the records of the input residue
CSV does change cell values — swapping entity X1's two records swaps which
columns carry which encoded values, because the per-code grouping
concatenates the encoded residues in input order with no position
tracking. -/
theorem record_order_changes_cells :
    Encode4d.combine_by_pdb_code 2 [(str "X1", 'Q'), (str "X1", 'Y')]
        [(str "X1", -44.6)] ≠
      Encode4d.combine_by_pdb_code 2 [(str "X1", 'Y'), (str "X1", 'Q')]
        [(str "X1", -44.6)] := by
  decide

/-- The no-duplicate-code pairwise property transfers from the angle table
to its sorted form. -/
theorem sortByCode_pairwise_ne {l : List (Str × ℚ)}
    (hd : List.Pairwise (fun a b => a.1 ≠ b.1) l) :
    List.Pairwise (fun a b : Str × ℚ => a.1 ≠ b.1) (Encode4d.sortByCode l) :=
  ((Encode4d.sortByCode_perm l).pairwise_iff
    (fun h e => h e.symm)).mpr hd

/-- With pairwise-distinct codes the merge sort order is strict. -/
theorem sortByCode_pairwise_lt {l : List (Str × ℚ)}
    (hd : List.Pairwise (fun a b => a.1 ≠ b.1) l) :
    List.Pairwise (fun a b : Str × ℚ => a.1 < b.1) (Encode4d.sortByCode l) := by
  have hle : List.Pairwise (fun a b : Str × ℚ => a.1 ≤ b.1) (Encode4d.sortByCode l) :=
    Encode4d.sortByCode_sorted l
  have hne := sortByCode_pairwise_ne hd
  exact (hle.and hne).imp (fun h => lt_of_le_of_ne h.1 h.2)

/-- Two angle tables that are permutations of each other, with
pairwise-distinct codes, sort to the same list. -/
theorem sortByCode_eq_of_perm {l₁ l₂ : List (Str × ℚ)}
    (hp : List.Perm l₁ l₂)
    (hd : List.Pairwise (fun a b => a.1 ≠ b.1) l₁) :
    Encode4d.sortByCode l₁ = Encode4d.sortByCode l₂ := by
  have hd₂ : List.Pairwise (fun a b => a.1 ≠ b.1) l₂ :=
    (hp.pairwise_iff (fun h e => h e.symm)).mp hd
  have hperm : List.Perm (Encode4d.sortByCode l₁) (Encode4d.sortByCode l₂) :=
    ((Encode4d.sortByCode_perm l₁).trans hp).trans
      (Encode4d.sortByCode_perm l₂).symm
  have hs₁ : List.Sorted (fun a b : Str × ℚ => a.1 < b.1) (Encode4d.sortByCode l₁) := by
    rw [List.Sorted]
    exact sortByCode_pairwise_lt hd
  have hs₂ : List.Sorted (fun a b : Str × ℚ => a.1 < b.1) (Encode4d.sortByCode l₂) := by
    rw [List.Sorted]
    exact sortByCode_pairwise_lt hd₂
  exact @List.eq_of_perm_of_sorted _ (fun a b => a.1 < b.1)
    ⟨fun a b h h' => absurd h' (lt_asymm h)⟩ _ _ hperm hs₁ hs₂

/-- The whole pipeline reads the angle table only through its sorted form,
so permuting a unique-code angle table cannot change the output. -/
theorem combine_angle_perm {n : Nat} {records : List (Str × Char)}
    {angles₁ angles₂ : List (Str × ℚ)}
    (hp : List.Perm angles₁ angles₂)
    (hd : List.Pairwise (fun a b => a.1 ≠ b.1) angles₁) :
    Encode4d.combine_by_pdb_code n records angles₁ =
      Encode4d.combine_by_pdb_code n records angles₂ := by
  unfold Encode4d.combine_by_pdb_code Encode4d.mergeRight
  simp only [sortByCode_eq_of_perm hp hd]

/-- The codes of a produced training table are sorted ascending: the merge
emits one row per sorted-angle-table row and the dropna cleanup only
removes rows. -/
theorem combine_codes_sorted (n : Nat) (records : List (Str × Char))
    (angles : List (Str × ℚ)) (t : List (Str × List Cell × ℚ))
    (h : Encode4d.combine_by_pdb_code n records angles = some t) :
    List.Sorted (fun a b : Str => a ≤ b) (t.map (fun r => r.1)) := by
  unfold Encode4d.combine_by_pdb_code at h
  cases henc : Encode4d.encodeGroups n (Encode4d.groupByCode records) with
  | none => rw [henc] at h; exact absurd h (by simp)
  | some enc =>
    rw [henc] at h
    injection h with h
    subst h
    have hsorted :
        List.Sorted (fun a b : Str => a ≤ b)
          ((Encode4d.mergeRight n enc angles).map (fun r => r.1)) := by
      rw [Encode4d.mergeRight_codes]
      have hsc := Encode4d.sortByCode_sorted angles
      rw [List.Sorted] at hsc ⊢
      rw [List.pairwise_map]
      exact hsc
    have hsub :
        ((Encode4d.dropNaN (Encode4d.mergeRight n enc angles)).map (fun r => r.1)).Sublist
          ((Encode4d.mergeRight n enc angles).map (fun r => r.1)) :=
      (List.filter_sublist _).map _
    exact hsorted.sublist hsub

/-- Claim C10, amended: the training table returned by combine_by_pdb_code
lists its rows in ascending lexicographic order of entity code for every
input (the labelled merge sorts by code, and the cleanup preserves the
order), and for an angle table with pairwise-distinct entity codes — the
uniqueness the spec's interface section requires of the angle CSV —
permuting the angle-table rows leaves the returned training table
unchanged; but permuting the input residue records is NOT value-neutral:
reordering the records within one entity reorders that entity's encoded
values across its columns (see the counterexample). -/
theorem training_table_sorted_and_angle_invariant (n : Nat)
    (records : List (Str × Char)) (angles₁ angles₂ : List (Str × ℚ))
    (t : List (Str × List Cell × ℚ))
    (hperm : List.Perm angles₁ angles₂)
    (hdist : List.Pairwise (fun a b => a.1 ≠ b.1) angles₁)
    (h : Encode4d.combine_by_pdb_code n records angles₁ = some t) :
    List.Sorted (fun a b : Str => a ≤ b) (t.map (fun r => r.1)) ∧
    Encode4d.combine_by_pdb_code n records angles₂ = some t :=
  ⟨combine_codes_sorted n records angles₁ t h,
   (combine_angle_perm hperm hdist).symm.trans h⟩

/-- Claim C10, witness: a two-entity run whose angle table arrives in
descending order yields rows sorted ascending by code, and the run with
the angle table in ascending order returns the identical table. -/
theorem training_table_sorted_and_angle_invariant_witness :
    List.Sorted (fun a b : Str => a ≤ b)
      (([(str "A", ([] : List Cell), (1 : ℚ)), (str "B", [], 2)]).map (fun r => r.1)) ∧
    Encode4d.combine_by_pdb_code 0 [] [(str "A", 1), (str "B", 2)] =
      some [(str "A", [], 1), (str "B", [], 2)] :=
  training_table_sorted_and_angle_invariant 0 [] [(str "B", 2), (str "A", 1)]
    [(str "A", 1), (str "B", 2)]
    [(str "A", [], 1), (str "B", [], 2)]
    (List.Perm.swap (str "A", 1) (str "B", 2) []) (by decide) (by rfl)
